import Mathlib

/-!
Verification of the hikaku-voice client core
(`src/frontend/components/VoiceComparison.tsx`): the audio frame encoder,
the amplitude-gated speech tracker, and the transcript event reducer.

Shallow embedding conventions:
* JS `number` timestamps (epoch milliseconds from `Date.now()`) are `ℤ`.
* Audio samples (JS `Float32`) are `ℚ`; the concrete sample values the
  claims mention (0, ±1, small fractions of full scale) are exact in both.
* The JS object `Record<string, ProviderState>` is a map
  `String → Option ProviderState`; the spread `{...prev, [k]: v}` is a
  pointwise update that leaves every other key at its previous value.
* JS `String.prototype.trim` is modelled by dropping leading and trailing
  whitespace characters from the character list.
-/

/-- Characters of a string with leading and trailing whitespace removed,
mirroring JS `String.prototype.trim`. -/
def trimChars (l : List Char) : List Char :=
  (((l.dropWhile Char.isWhitespace).reverse).dropWhile Char.isWhitespace).reverse

/-- JS `text.trim()` on the embedded string. -/
def jsTrim (s : String) : String := ⟨trimChars s.data⟩

/-- JS number-to-integer conversion used by `Int16Array` element assignment:
truncation toward zero. -/
def jsTrunc (q : ℚ) : ℤ := if 0 ≤ q then ⌊q⌋ else ⌈q⌉

/-- Wrap of a truncated value into the signed 16-bit range, the final step of
`Int16Array` element assignment (`ToInt16`). -/
def toInt16 (n : ℤ) : ℤ := (n + 32768) % 65536 - 32768

/-- `Math.max(-1, Math.min(1, x))` from the worklet message handler. -/
def clampQ (s : ℚ) : ℚ := max (-1) (min 1 s)

/-- The scaled value before the 16-bit wrap:
`s < 0 ? s * 0x8000 : s * 0x7FFF` applied to the clamped sample. -/
def encodePre (s : ℚ) : ℤ :=
  jsTrunc (if clampQ s < 0 then clampQ s * 32768 else clampQ s * 32767)

/-- Per-sample encoder: `int16Array[i] = s < 0 ? s * 0x8000 : s * 0x7FFF`
after clamping, stored into an `Int16Array` slot. -/
def encodeSample (s : ℚ) : ℤ := toInt16 (encodePre s)

/-- `maxAmp`: running maximum of `Math.abs(int16Array[i])` over the block,
starting from 0. -/
def maxAmp (block : List ℚ) : ℕ :=
  block.foldl (fun m s => max m (encodeSample s).natAbs) 0

/-- The VAD update in `worklet.port.onmessage`:
`if (maxAmp > 500) lastSpeechTimeRef.current = Date.now()`. Returns the new
value of the speech-activity marker. -/
def observe (marker now : ℤ) (block : List ℚ) : ℤ :=
  if 500 < maxAmp block then now else marker

/-- Successive values of `lastSpeechTimeRef.current` (initially `m`) while the
tracker consumes blocks paired with the wall-clock reading at their arrival. -/
def markerTrace (m : ℤ) : List (List ℚ × ℤ) → List ℤ
  | [] => [m]
  | step :: rest => m :: markerTrace (observe m step.2 step.1) rest

/-- A finalized transcript line: `{text, latency}`. -/
structure TranscriptSegment where
  text : String
  latency : ℤ
deriving DecidableEq

/-- Per-provider reducer state. -/
structure ProviderState where
  segments : List TranscriptSegment
  partialText : String
  latency : ℤ
  lastUpdate : ℤ
deriving DecidableEq

/-- The fresh state `{segments: [], partialText: "", latency: 0, lastUpdate: 0}`. -/
def defaultProviderState : ProviderState :=
  { segments := [], partialText := "", latency := 0, lastUpdate := 0 }

/-- The `Record<string, ProviderState>` held in the `states` React state. -/
abbrev StateMap := String → Option ProviderState

/-- `{...prev, [k]: v}`: update one key, leave every other entry untouched. -/
def setKey (s : StateMap) (k : String) (v : ProviderState) : StateMap :=
  fun q => if q = k then some v else s q

/-- Inbound `transcription` message payload. -/
structure TranscriptionEvent where
  provider : String
  text : String
  is_final : Bool
  timestamp : ℤ
  latency_ms : ℤ
deriving DecidableEq

/-- `handleTranscription` from VoiceComparison.tsx. `marker` is
`lastSpeechTimeRef.current`, `now` is `Date.now()` at entry. -/
def handleTranscription (marker now : ℤ) (s : StateMap) (ev : TranscriptionEvent) :
    StateMap :=
  let current := (s ev.provider).getD defaultProviderState
  if ev.is_final then
    if jsTrim ev.text = "" then
      setKey s ev.provider
        { segments := current.segments, partialText := "",
          latency := current.latency, lastUpdate := now }
    else
      let lat := max 0 (now - marker)
      setKey s ev.provider
        { segments := current.segments ++ [{ text := ev.text, latency := lat }],
          partialText := "", latency := lat, lastUpdate := now }
  else
    setKey s ev.provider
      { segments := current.segments, partialText := ev.text,
        latency := current.latency, lastUpdate := now }

/-- Body of the `config` branch loop:
`if (!next[p]) next[p] = {segments: [], partialText: "", latency: 0, lastUpdate: 0}`. -/
def registerProvider (s : StateMap) (p : String) : StateMap :=
  if (s p).isSome then s else setKey s p defaultProviderState

/-- The `config` branch of `ws.onmessage`: fold the registration over the
announced provider list. -/
def applyConfig (s : StateMap) : List String → StateMap
  | [] => s
  | p :: ps => applyConfig (registerProvider s p) ps

/-- Inbound event: the tagged union dispatched by `ws.onmessage`. -/
inductive InboundEvent where
  | config (providers : List String)
  | transcription (ev : TranscriptionEvent)
  | error (message : String)

/-- Session-level view state: the provider map plus the `error` banner. -/
structure Session where
  states : StateMap
  error : Option String

/-- The `ws.onmessage` dispatch over a parsed inbound event. -/
def applyEvent (marker now : ℤ) (sess : Session) : InboundEvent → Session
  | .config providers => { sess with states := applyConfig sess.states providers }
  | .transcription ev => { sess with states := handleTranscription marker now sess.states ev }
  | .error message => { sess with error := some message }

/-- The empty provider map (initial `states`). -/
def emptyStates : StateMap := fun _ => none

/-- A sample provider map with one populated provider, used as a concrete
test state. -/
def sampleStates : StateMap := fun k =>
  if k = "deepgram" then
    some { segments := [{ text := "hi", latency := 120 }], partialText := "hel",
           latency := 120, lastUpdate := 10 }
  else none

lemma neg_one_le_clampQ (s : ℚ) : -1 ≤ clampQ s := le_max_left _ _

lemma clampQ_le_one (s : ℚ) : clampQ s ≤ 1 := max_le (by norm_num) (min_le_left _ _)

lemma clampQ_of_mem {s : ℚ} (h0 : -1 ≤ s) (h1 : s ≤ 1) : clampQ s = s := by
  rw [clampQ, min_eq_right h1, max_eq_right h0]

lemma clampQ_of_ge {s : ℚ} (h : 1 ≤ s) : clampQ s = 1 := by
  rw [clampQ, min_eq_left h, max_eq_right (by norm_num)]

lemma clampQ_of_le {s : ℚ} (h : s ≤ -1) : clampQ s = -1 := by
  rw [clampQ, min_eq_right (by linarith), max_eq_left h]

lemma ceil_neg_32768 : ⌈(-32768 : ℚ)⌉ = -32768 := by
  rw [show (-32768 : ℚ) = ((-32768 : ℤ) : ℚ) by norm_num]
  exact Int.ceil_intCast _

lemma toInt16_eq_self {n : ℤ} (h1 : -32768 ≤ n) (h2 : n ≤ 32767) : toInt16 n = n := by
  rw [toInt16, Int.emod_eq_of_lt (by linarith) (by linarith)]
  ring

lemma encodePre_lb (s : ℚ) : -32768 ≤ encodePre s := by
  rw [encodePre]
  split
  case isTrue h =>
    have hq : clampQ s * 32768 < 0 := mul_neg_of_neg_of_pos h (by norm_num)
    rw [jsTrunc, if_neg (not_le.mpr hq)]
    have hge : (-32768 : ℚ) ≤ clampQ s * 32768 := by nlinarith [neg_one_le_clampQ s]
    calc (-32768 : ℤ) = ⌈(-32768 : ℚ)⌉ := ceil_neg_32768.symm
      _ ≤ ⌈clampQ s * 32768⌉ := Int.ceil_le_ceil hge
  case isFalse h =>
    have hq : 0 ≤ clampQ s * 32767 := mul_nonneg (not_lt.mp h) (by norm_num)
    rw [jsTrunc, if_pos hq]
    have hf : (0 : ℤ) ≤ ⌊clampQ s * 32767⌋ := Int.le_floor.mpr (by exact_mod_cast hq)
    linarith

lemma encodePre_ub (s : ℚ) : encodePre s ≤ 32767 := by
  rw [encodePre]
  split
  case isTrue h =>
    have hq : clampQ s * 32768 < 0 := mul_neg_of_neg_of_pos h (by norm_num)
    rw [jsTrunc, if_neg (not_le.mpr hq)]
    have hc : ⌈clampQ s * 32768⌉ ≤ 0 := Int.ceil_le.mpr (by exact_mod_cast hq.le)
    linarith
  case isFalse h =>
    have hq : 0 ≤ clampQ s * 32767 := mul_nonneg (not_lt.mp h) (by norm_num)
    rw [jsTrunc, if_pos hq]
    have hle : clampQ s * 32767 ≤ (32767 : ℚ) := by nlinarith [clampQ_le_one s]
    calc ⌊clampQ s * 32767⌋ ≤ ⌊(32767 : ℚ)⌋ := Int.floor_le_floor hle
      _ = 32767 := by norm_num

lemma encodeSample_eq_pre (s : ℚ) : encodeSample s = encodePre s := by
  rw [encodeSample, toInt16_eq_self (encodePre_lb s) (encodePre_ub s)]

lemma encodeSample_of_nonneg {s : ℚ} (h0 : 0 ≤ s) (h1 : s ≤ 1) :
    encodeSample s = ⌊s * 32767⌋ := by
  rw [encodeSample_eq_pre, encodePre, clampQ_of_mem (by linarith) h1,
    if_neg (not_lt.mpr h0), jsTrunc, if_pos (mul_nonneg h0 (by norm_num))]

lemma encodeSample_one : encodeSample 1 = 32767 := by
  rw [encodeSample_of_nonneg (by norm_num) le_rfl]
  norm_num

lemma encodeSample_zero : encodeSample 0 = 0 := by
  rw [encodeSample_of_nonneg le_rfl (by norm_num)]
  norm_num

lemma encodeSample_neg_one : encodeSample (-1) = -32768 := by
  rw [encodeSample_eq_pre, encodePre, clampQ_of_le le_rfl, if_pos (by norm_num),
    jsTrunc, if_neg (by norm_num)]
  rw [show (-1 : ℚ) * 32768 = -32768 by norm_num]
  exact ceil_neg_32768

lemma encodeSample_clamp_eq {s t : ℚ} (h : clampQ s = clampQ t) :
    encodeSample s = encodeSample t := by
  rw [encodeSample, encodeSample, encodePre, encodePre, h]

/-- C6: the per-sample encoder is total, clamps to [-1, 1] before asymmetric
scaling (32768 on the negative side, 32767 on the nonnegative side); it sends
1 to 32767, -1 to -32768, 0 to 0, treats out-of-range inputs as their clamped
boundary, and its output always lies in the signed 16-bit range. -/
theorem encoder_contract :
    encodeSample 1 = 32767 ∧ encodeSample (-1) = -32768 ∧ encodeSample 0 = 0 ∧
    (∀ s : ℚ, 1 < s → encodeSample s = encodeSample 1) ∧
    (∀ s : ℚ, s < -1 → encodeSample s = encodeSample (-1)) ∧
    ∀ s : ℚ, -32768 ≤ encodeSample s ∧ encodeSample s ≤ 32767 := by
  refine ⟨encodeSample_one, encodeSample_neg_one, encodeSample_zero, ?_, ?_, ?_⟩
  · intro s hs
    exact encodeSample_clamp_eq (by rw [clampQ_of_ge hs.le, clampQ_of_ge le_rfl])
  · intro s hs
    exact encodeSample_clamp_eq (by rw [clampQ_of_le hs.le, clampQ_of_le le_rfl])
  · intro s
    rw [encodeSample_eq_pre]
    exact ⟨encodePre_lb s, encodePre_ub s⟩

/-- Witness for C6 at the concrete samples 2, -2 and 1/2. -/
theorem encoder_contract_witness :
    encodeSample 2 = encodeSample 1 ∧ encodeSample (-2) = encodeSample (-1) ∧
    -32768 ≤ encodeSample (1/2) ∧ encodeSample (1/2) ≤ 32767 := by
  obtain ⟨-, -, -, h4, h5, h6⟩ := encoder_contract
  exact ⟨h4 2 (by norm_num), h5 (-2) (by norm_num), (h6 (1/2)).1, (h6 (1/2)).2⟩

/-- C7: the speech tracker compares the block's maximum scaled amplitude
strictly against 500: at exactly 500 the marker keeps its previous value, at
501 it is set to the current wall-clock time. -/
theorem tracker_strict_threshold (block : List ℚ) (m now : ℤ) :
    (maxAmp block = 500 → observe m now block = m) ∧
    (maxAmp block = 501 → observe m now block = now) := by
  constructor <;> intro h <;> simp [observe, h]

/-- Witness for C7: one-sample blocks whose encoded amplitudes are exactly
500 and 501. -/
theorem tracker_strict_threshold_witness :
    observe 3 9 [500 / 32767] = 3 ∧ observe 3 9 [501 / 32767] = 9 := by
  have e1 : encodeSample (500 / 32767) = 500 := by
    rw [encodeSample_of_nonneg (by norm_num) (by norm_num),
      show (500 / 32767 : ℚ) * 32767 = 500 by norm_num]
    norm_num
  have e2 : encodeSample (501 / 32767) = 501 := by
    rw [encodeSample_of_nonneg (by norm_num) (by norm_num),
      show (501 / 32767 : ℚ) * 32767 = 501 by norm_num]
    norm_num
  have m1 : maxAmp [500 / 32767] = 500 := by simp [maxAmp, e1]
  have m2 : maxAmp [501 / 32767] = 501 := by simp [maxAmp, e2]
  exact ⟨(tracker_strict_threshold [500 / 32767] 3 9).1 m1,
    (tracker_strict_threshold [501 / 32767] 3 9).2 m2⟩

lemma markerTrace_head (m : ℤ) (steps : List (List ℚ × ℤ)) :
    (markerTrace m steps).head? = some m := by
  cases steps <;> rfl

lemma le_observe {m t : ℤ} (block : List ℚ) (h : m ≤ t) : m ≤ observe m t block := by
  rw [observe]
  split
  · exact h
  · exact le_rfl

lemma markerTrace_chain (steps : List (List ℚ × ℤ)) (m : ℤ)
    (hm : ∀ t ∈ steps.map Prod.snd, m ≤ t)
    (hp : List.Pairwise (· ≤ ·) (steps.map Prod.snd)) :
    List.Chain' (· ≤ ·) (markerTrace m steps) := by
  induction steps generalizing m with
  | nil => simp [markerTrace]
  | cons step rest ih =>
    rw [List.map_cons] at hm hp
    obtain ⟨hstep, hrest⟩ := List.pairwise_cons.mp hp
    have hmt : m ≤ step.2 := hm _ (List.mem_cons_self _ _)
    rw [markerTrace, List.chain'_cons']
    constructor
    · intro y hy
      rw [markerTrace_head, Option.mem_some_iff] at hy
      subst hy
      exact le_observe step.1 hmt
    · refine ih (observe m step.2 step.1) ?_ hrest
      intro t ht
      rw [observe]
      split
      · exact hstep t ht
      · exact hm t (List.mem_cons_of_mem _ ht)

/-- C8: over any sequence of audio blocks, if the wall-clock readings taken at
each block are non-decreasing and at or after the initial sentinel value 0,
then the successive values of the speech-activity marker are monotonically
non-decreasing. -/
theorem speech_marker_monotone (steps : List (List ℚ × ℤ))
    (h0 : ∀ t ∈ steps.map Prod.snd, 0 ≤ t)
    (hchain : List.Chain' (· ≤ ·) (steps.map Prod.snd)) :
    List.Chain' (· ≤ ·) (markerTrace 0 steps) :=
  markerTrace_chain steps 0 h0 (List.chain'_iff_pairwise.mp hchain)

/-- Witness for C8: a concrete three-block run where only some blocks exceed
the threshold. -/
theorem speech_marker_monotone_witness :
    List.Chain' (· ≤ ·) (markerTrace 0 [([], 5), ([1], 7), ([], 11)]) := by
  refine speech_marker_monotone [([], 5), ([1], 7), ([], 11)] ?_ ?_
  · intro t ht
    simp only [List.map_cons, List.map_nil, List.mem_cons, List.not_mem_nil,
      or_false] at ht
    rcases ht with rfl | rfl | rfl <;> norm_num
  · simp only [List.map_cons, List.map_nil]
    exact List.Chain'.cons (by norm_num) (List.Chain'.cons (by norm_num) (by simp))

lemma setKey_same (s : StateMap) (k : String) (v : ProviderState) :
    setKey s k v k = some v := by
  simp [setKey]

lemma setKey_other (s : StateMap) {k q : String} (v : ProviderState) (h : q ≠ k) :
    setKey s k v q = s q := by
  simp [setKey, h]

lemma registerProvider_preserve {s : StateMap} {k : String} {v : ProviderState}
    (p : String) (h : s k = some v) : registerProvider s p k = some v := by
  rw [registerProvider]
  split
  · exact h
  case isFalse hp =>
    by_cases hkp : k = p
    · subst hkp
      rw [h] at hp
      simp at hp
    · rw [setKey_other s _ hkp]
      exact h

lemma registerProvider_other {s : StateMap} {k p : String} (h : k ≠ p) :
    registerProvider s p k = s k := by
  rw [registerProvider]
  split
  · rfl
  · exact setKey_other s _ h

lemma applyConfig_preserve (ps : List String) {s : StateMap} {k : String}
    {v : ProviderState} (h : s k = some v) : applyConfig s ps k = some v := by
  induction ps generalizing s with
  | nil => exact h
  | cons p ps ih => exact ih (registerProvider_preserve p h)

lemma applyConfig_not_mem {ps : List String} {s : StateMap} {k : String}
    (h : k ∉ ps) : applyConfig s ps k = s k := by
  induction ps generalizing s with
  | nil => rfl
  | cons p ps ih =>
    rw [applyConfig, ih (fun hk => h (List.mem_cons_of_mem _ hk)),
      registerProvider_other (fun hk => h (by rw [hk]; exact List.mem_cons_self _ _))]

lemma applyConfig_mem_fresh {ps : List String} {s : StateMap} {k : String}
    (h : k ∈ ps) (hn : s k = none) :
    applyConfig s ps k = some defaultProviderState := by
  induction ps generalizing s with
  | nil => exact absurd h (List.not_mem_nil k)
  | cons p ps ih =>
    rw [applyConfig]
    by_cases hkp : k = p
    · subst hkp
      have hreg : registerProvider s k k = some defaultProviderState := by
        rw [registerProvider, hn]
        simp [setKey_same]
      exact applyConfig_preserve ps hreg
    · have hk : k ∈ ps := (List.mem_cons.mp h).resolve_left hkp
      refine ih hk ?_
      rw [registerProvider_other hkp]
      exact hn

lemma applyConfig_mem_isSome {ps : List String} {s : StateMap} {k : String}
    (h : k ∈ ps) : (applyConfig s ps k).isSome := by
  cases hs : s k with
  | some v => rw [applyConfig_preserve ps hs]; rfl
  | none => rw [applyConfig_mem_fresh h hs]; rfl

/-- C4: a Config event inserts the fresh default state for exactly the
announced providers that are absent, never removes or overwrites an existing
provider's state, and is idempotent. -/
theorem config_monotonic_idempotent (s : StateMap) (ps : List String) :
    (∀ p, p ∈ ps → s p = none → applyConfig s ps p = some defaultProviderState) ∧
    (∀ k v, s k = some v → applyConfig s ps k = some v) ∧
    (∀ k, k ∉ ps → applyConfig s ps k = s k) ∧
    applyConfig (applyConfig s ps) ps = applyConfig s ps := by
  refine ⟨fun p hp hn => applyConfig_mem_fresh hp hn,
    fun k v hv => applyConfig_preserve ps hv,
    fun k hk => applyConfig_not_mem hk, funext fun k => ?_⟩
  by_cases h : k ∈ ps
  · obtain ⟨v, hv⟩ := Option.isSome_iff_exists.mp (applyConfig_mem_isSome h)
    rw [applyConfig_preserve ps hv, hv]
  · exact applyConfig_not_mem h

/-- Witness for C4 on the sample state and the provider list
["deepgram", "openai"]: "openai" is freshly inserted, "deepgram" keeps its
populated state, an unannounced key is untouched, and a second application
changes nothing. -/
theorem config_monotonic_idempotent_witness :
    applyConfig sampleStates ["deepgram", "openai"] "openai" =
      some defaultProviderState ∧
    applyConfig sampleStates ["deepgram", "openai"] "deepgram" =
      some { segments := [{ text := "hi", latency := 120 }], partialText := "hel",
             latency := 120, lastUpdate := 10 } ∧
    applyConfig sampleStates ["deepgram", "openai"] "whisper" =
      sampleStates "whisper" ∧
    applyConfig (applyConfig sampleStates ["deepgram", "openai"])
        ["deepgram", "openai"] =
      applyConfig sampleStates ["deepgram", "openai"] := by
  obtain ⟨h1, h2, h3, h4⟩ :=
    config_monotonic_idempotent sampleStates ["deepgram", "openai"]
  exact ⟨h1 "openai" (by decide) (by decide), h2 "deepgram" _ (by decide),
    h3 "whisper" (by decide), h4⟩

/-- C1: a final transcription with non-blank text appends exactly one segment
carrying the gated latency max(0, now - marker), clears partialText, and sets
the provider's latency field to that value — whether or not the provider was
already present (a missing provider starts from the default state). -/
theorem reducer_final_nonempty_appends (marker now : ℤ) (s : StateMap)
    (ev : TranscriptionEvent) (hf : ev.is_final = true)
    (ht : jsTrim ev.text ≠ "") :
    handleTranscription marker now s ev ev.provider =
      some { segments := ((s ev.provider).getD defaultProviderState).segments ++
               [{ text := ev.text, latency := max 0 (now - marker) }],
             partialText := "", latency := max 0 (now - marker),
             lastUpdate := now } := by
  rw [handleTranscription]
  simp only [hf, if_true, if_neg ht]
  exact setKey_same s ev.provider _

/-- Witness for C1: marker 100, now 350, empty prior map; the segment carries
latency 250. -/
theorem reducer_final_nonempty_appends_witness :
    handleTranscription 100 350 emptyStates
        { provider := "deepgram", text := "hello", is_final := true,
          timestamp := 0, latency_ms := 0 } "deepgram" =
      some { segments := [{ text := "hello", latency := 250 }],
             partialText := "", latency := 250, lastUpdate := 350 } := by
  have h := reducer_final_nonempty_appends 100 350 emptyStates
    { provider := "deepgram", text := "hello", is_final := true,
      timestamp := 0, latency_ms := 0 } rfl (by decide)
  have hm : max 0 ((350 : ℤ) - 100) = 250 := by norm_num
  simpa [emptyStates, defaultProviderState, hm] using h

/-- C2: a final transcription whose text is empty or whitespace-only appends
no segment, clears partialText, and keeps the provider's latency at its
previous value. -/
theorem reducer_final_empty_suppresses (marker now : ℤ) (s : StateMap)
    (ev : TranscriptionEvent) (hf : ev.is_final = true)
    (ht : jsTrim ev.text = "") :
    handleTranscription marker now s ev ev.provider =
      some { segments := ((s ev.provider).getD defaultProviderState).segments,
             partialText := "",
             latency := ((s ev.provider).getD defaultProviderState).latency,
             lastUpdate := now } := by
  rw [handleTranscription]
  simp only [hf, if_true, if_pos ht]
  exact setKey_same s ev.provider _

/-- Witness for C2: a whitespace-only final on the populated sample provider
keeps its single segment and latency 120 while clearing the partial "hel". -/
theorem reducer_final_empty_suppresses_witness :
    handleTranscription 0 999 sampleStates
        { provider := "deepgram", text := "   ", is_final := true,
          timestamp := 0, latency_ms := 0 } "deepgram" =
      some { segments := [{ text := "hi", latency := 120 }],
             partialText := "", latency := 120, lastUpdate := 999 } := by
  have h := reducer_final_empty_suppresses 0 999 sampleStates
    { provider := "deepgram", text := "   ", is_final := true,
      timestamp := 0, latency_ms := 0 } rfl (by decide)
  simpa [sampleStates] using h

/-- C3: a non-final transcription replaces partialText wholesale with the
event's text, leaving segments and latency unchanged; and in every
transcription branch the provider's lastUpdate is set to now. -/
theorem reducer_nonfinal_replaces (marker now : ℤ) (s : StateMap)
    (ev : TranscriptionEvent) :
    (ev.is_final = false →
      handleTranscription marker now s ev ev.provider =
        some { segments := ((s ev.provider).getD defaultProviderState).segments,
               partialText := ev.text,
               latency := ((s ev.provider).getD defaultProviderState).latency,
               lastUpdate := now }) ∧
    Option.map ProviderState.lastUpdate
        (handleTranscription marker now s ev ev.provider) = some now := by
  constructor
  · intro hf
    rw [handleTranscription]
    simp only [hf, Bool.false_eq_true, if_false]
    exact setKey_same s ev.provider _
  · rw [handleTranscription]
    by_cases hf : ev.is_final = true
    · by_cases ht : jsTrim ev.text = "" <;>
        simp [hf, ht, setKey_same]
    · simp only [hf]
      simp [setKey_same]

/-- Witness for C3: a non-final "hel" on an empty map creates the provider
with partialText "hel", no segments, latency 0, lastUpdate 50. -/
theorem reducer_nonfinal_replaces_witness :
    handleTranscription 0 50 emptyStates
        { provider := "openai", text := "hel", is_final := false,
          timestamp := 0, latency_ms := 0 } "openai" =
      some { segments := [], partialText := "hel", latency := 0,
             lastUpdate := 50 } := by
  have h := (reducer_nonfinal_replaces 0 50 emptyStates
    { provider := "openai", text := "hel", is_final := false,
      timestamp := 0, latency_ms := 0 }).1 rfl
  simpa [emptyStates, defaultProviderState] using h

/-- C5: a transcription event touches at most its own provider's entry; every
other key of the map keeps exactly its previous value. -/
theorem reducer_isolated (marker now : ℤ) (s : StateMap)
    (ev : TranscriptionEvent) (k : String) (h : k ≠ ev.provider) :
    handleTranscription marker now s ev k = s k := by
  rw [handleTranscription]
  by_cases hf : ev.is_final = true
  · by_cases ht : jsTrim ev.text = "" <;>
      simp [hf, ht, setKey_other s _ h]
  · simp only [hf]
    simp [setKey_other s _ h]

/-- Witness for C5: an "openai" event leaves the populated "deepgram" entry
of the sample state untouched. -/
theorem reducer_isolated_witness :
    handleTranscription 0 1 sampleStates
        { provider := "openai", text := "x", is_final := false,
          timestamp := 0, latency_ms := 0 } "deepgram" =
      sampleStates "deepgram" :=
  reducer_isolated 0 1 sampleStates
    { provider := "openai", text := "x", is_final := false,
      timestamp := 0, latency_ms := 0 } "deepgram" (by decide)

/-- C9: an Error event leaves every provider's state unchanged and overwrites
the session-level error with exactly the event's message. -/
theorem error_event_overwrites (marker now : ℤ) (sess : Session) (msg : String) :
    (applyEvent marker now sess (.error msg)).states = sess.states ∧
    (applyEvent marker now sess (.error msg)).error = some msg :=
  ⟨rfl, rfl⟩

/-- C10: with the speech-activity marker still at its initial sentinel 0, a
final non-blank transcription at wall-clock time now yields a segment whose
latency is now itself — the sentinel is arithmetically indistinguishable from
speech ending at the epoch. -/
theorem sentinel_latency_equals_now (now : ℤ) (s : StateMap)
    (ev : TranscriptionEvent) (h0 : 0 ≤ now) (hf : ev.is_final = true)
    (ht : jsTrim ev.text ≠ "") :
    handleTranscription 0 now s ev ev.provider =
      some { segments := ((s ev.provider).getD defaultProviderState).segments ++
               [{ text := ev.text, latency := now }],
             partialText := "", latency := now, lastUpdate := now } := by
  have hm : max 0 (now - 0) = now := by
    rw [sub_zero]
    exact max_eq_right h0
  rw [handleTranscription]
  simp only [hf, if_true, if_neg ht, hm]
  exact setKey_same s ev.provider _

/-- Witness for C10: sentinel marker 0 and now = 1700000000000 give a segment
latency equal to the full epoch value 1700000000000. -/
theorem sentinel_latency_equals_now_witness :
    handleTranscription 0 1700000000000 emptyStates
        { provider := "deepgram", text := "hello", is_final := true,
          timestamp := 0, latency_ms := 0 } "deepgram" =
      some { segments := [{ text := "hello", latency := 1700000000000 }],
             partialText := "", latency := 1700000000000,
             lastUpdate := 1700000000000 } := by
  have h := sentinel_latency_equals_now 1700000000000 emptyStates
    { provider := "deepgram", text := "hello", is_final := true,
      timestamp := 0, latency_ms := 0 } (by norm_num) rfl (by decide)
  simpa [emptyStates, defaultProviderState] using h
